import Mathlib

/-!
Shallow embedding of the rlox scanner / parser / tree-walking interpreter
(src/scanner.rs, src/parser.rs, src/interpreter.rs), together with theorems
settling the specification claims about it.

Modelling conventions:
* Rust `f64` numbers are modelled as exact rationals; every program appearing
  in a concrete theorem only manipulates integer-valued numbers, on which
  `f64` arithmetic is exact, except for the division claim, where a separate
  IEEE-style model with infinities and NaN is used.
* Rust `HashMap<String, Value>` is modelled as an association list with
  unique keys (`insert` replaces an existing binding).
* A Rust `Vec` of scopes growing at the back and iterated in reverse is
  modelled as a Lean list whose head is the innermost scope.
* Rust panics (explicit `panic!`, `todo!`, out-of-bounds indexing, `unwrap`)
  are modelled as an explicit abort outcome, kept distinct from `Result::Err`.
* Functions whose Rust originals contain loops or unbounded recursion take a
  fuel argument; `none` means the fuel ran out, i.e. the fueled approximation
  observed no result within that many steps.
-/

namespace RLox

/-- The model of Rust `f64`: a rational number in lowest terms with a
positive denominator, built only through `mkNum`.  On the integer-valued
numbers manipulated by every program in this file, `f64` arithmetic is exact
and agrees with exact rational arithmetic.  (A bespoke structure is used
instead of Mathlib's `ℚ` so that concrete runs of the interpreter reduce
inside the kernel.) -/
structure Num where
  num : Int
  den : Nat
  deriving DecidableEq

/-- Build the canonical representative of the fraction `n / d`: lowest
terms, positive denominator (the `d = 0` case is junk, unreachable from the
embedded code paths exercised here). -/
def mkNum (n d : Int) : Num :=
  if d = 0 then ⟨0, 1⟩
  else
    let g : Int := (n.natAbs.gcd d.natAbs : Nat)
    if d < 0 then ⟨-n / g, ((-d) / g).toNat⟩ else ⟨n / g, (d / g).toNat⟩

/-- Addition of `f64`-modelling rationals. -/
def Num.add (a b : Num) : Num :=
  mkNum (a.num * b.den + b.num * a.den) (a.den * b.den)

/-- Subtraction. -/
def Num.sub (a b : Num) : Num :=
  mkNum (a.num * b.den - b.num * a.den) (a.den * b.den)

/-- Multiplication. -/
def Num.mul (a b : Num) : Num :=
  mkNum (a.num * b.num) (a.den * b.den)

/-- Division; exact on nonzero divisors (division by zero, which `f64`
maps to infinities or NaN, is treated separately in the IEEE model below). -/
def Num.div (a b : Num) : Num :=
  mkNum (a.num * b.den) (b.num * a.den)

/-- Negation (stays in lowest terms). -/
def Num.neg (a : Num) : Num := ⟨-a.num, a.den⟩

/-- The `<` comparison: cross-multiplication with positive denominators. -/
def Num.blt (a b : Num) : Bool := a.num * b.den < b.num * a.den

/-- The `<=` comparison. -/
def Num.ble (a b : Num) : Bool := a.num * b.den ≤ b.num * a.den

instance (n : Nat) : OfNat Num n := ⟨⟨n, 1⟩⟩

/-- Token kinds, transcribed from `TokenType` in src/scanner.rs. -/
inductive TokenType
  | Dot | Comma | Semicolon | Plus | Minus | Star
  | LeftParen | RightParen | LeftBrace | RightBrace | Slash
  | Bang | BangEqual | Equal | EqualEqual
  | Greater | GreaterEqual | Less | LessEqual
  | Identifier | String | Number
  | And | Class | Else | False | Fun | For | If | Nil | Or
  | Print | Return | Super | This | True | Var | While
  | EOF
  deriving DecidableEq

/-- `TokenInfo` from src/scanner.rs; the `number` payload (an `Option<f64>`)
is modelled as an optional rational. -/
structure TokenInfo where
  token_type : TokenType
  line : Nat
  lexeme : String
  number : Option Num
  deriving DecidableEq

/-- Runtime values, from `Value` in src/parser.rs. -/
inductive Value
  | String (s : String)
  | Number (n : Num)
  | Boolean (b : Bool)
  | Nil
  deriving DecidableEq

/-- `Value::is_truthy` from src/parser.rs: `Nil` and `Boolean(false)` are
falsy, everything else is truthy. -/
def Value.is_truthy : Value → Bool
  | .Nil => false
  | .Boolean b => b
  | _ => true

/-- Expression nodes, from `Expr` in src/parser.rs. -/
inductive Expr
  | Binary (left : Expr) (operator : TokenInfo) (right : Expr)
  | Unary (operator : TokenInfo) (right : Expr)
  | Grouping (inner : Expr)
  | Literal (value : Value)
  | Variable (name : TokenInfo)
  | Assign (name : TokenInfo) (value : Expr)
  | Logical (left : Expr) (operator : TokenInfo) (right : Expr)
  deriving DecidableEq

/-- Statement nodes, from `Stmt` in src/parser.rs.  The optional initializer
field of `Var` is called `init` here. -/
inductive Stmt
  | Expression (e : Expr)
  | Print (e : Expr)
  | Var (name : TokenInfo) (init : Option Expr)
  | Block (stmts : List Stmt)
  | If (condition : Expr) (then_branch : Stmt) (else_branch : Option Stmt)
  | While (condition : Expr) (body : Stmt)

/-- One lexical scope: the `values: HashMap<String, Value>` of
`VariableScope` in src/interpreter.rs, as an association list. -/
structure VariableScope where
  values : List (String × Value)
  deriving DecidableEq

/-- `HashMap::get`: the value bound to `name`, if any. -/
def lookupValues : List (String × Value) → String → Option Value
  | [], _ => none
  | (k, v) :: rest, name => if k = name then some v else lookupValues rest name

/-- `HashMap::insert`: replace the binding of `name` if present, else add it. -/
def insertValues : List (String × Value) → String → Value → List (String × Value)
  | [], name, v => [(name, v)]
  | (k, w) :: rest, name, v =>
    if k = name then (name, v) :: rest else (k, w) :: insertValues rest name v

/-- The environment of src/interpreter.rs: a stack of scopes.  The Rust
`Vec` keeps the innermost scope at the back and iterates it in reverse;
here the head of `scopes` is the innermost scope. -/
structure Environment where
  scopes : List VariableScope
  deriving DecidableEq

/-- `Environment::new`: a single empty global scope. -/
def Environment.new : Environment := ⟨[⟨[]⟩]⟩

/-- The scope walk of `Environment::get`: innermost to outermost, returning
the first binding found. -/
def getInScopes : List VariableScope → String → Except String Value
  | [], name => .error ("Undefined variable " ++ name ++ ".")
  | sc :: rest, name =>
    match lookupValues sc.values name with
    | some v => .ok v
    | none => getInScopes rest name

/-- `Environment::get` from src/interpreter.rs. -/
def Environment.get (env : Environment) (name : String) : Except String Value :=
  getInScopes env.scopes name

/-- The scope walk of `Environment::assign`: update the first scope (from
innermost) that contains the name. -/
def assignInScopes : List VariableScope → String → Value → Except String (List VariableScope)
  | [], name, _ => .error ("Undefined variable " ++ name ++ ".")
  | sc :: rest, name, v =>
    if (lookupValues sc.values name).isSome then
      .ok (⟨insertValues sc.values name v⟩ :: rest)
    else
      match assignInScopes rest name v with
      | .ok rest' => .ok (sc :: rest')
      | .error e => .error e

/-- `Environment::assign` from src/interpreter.rs. -/
def Environment.assign (env : Environment) (name : String) (v : Value) :
    Except String Environment :=
  match assignInScopes env.scopes name v with
  | .ok scopes' => .ok ⟨scopes'⟩
  | .error e => .error e

/-- `Environment::define`: insert into the innermost scope.  The Rust code
unwraps `last_mut()`; the stack is never empty in any reachable state, and
the unreachable empty case is mapped to the unchanged environment. -/
def Environment.define (env : Environment) (name : String) (v : Value) : Environment :=
  match env.scopes with
  | [] => ⟨[]⟩
  | sc :: rest => ⟨⟨insertValues sc.values name v⟩ :: rest⟩

/-- `Environment::jump_in_scope`: push a fresh empty scope. -/
def Environment.jump_in_scope (env : Environment) : Environment :=
  ⟨⟨[]⟩ :: env.scopes⟩

/-- `Environment::jump_out_scope`: pop the innermost scope unless only the
global scope remains, in which case the Rust code panics (`none` here). -/
def Environment.jump_out_scope (env : Environment) : Option Environment :=
  if env.scopes.length ≠ 1 then some ⟨env.scopes.tail⟩ else none

/-- Abnormal termination of evaluation: either a `Result::Err` runtime error
(`err`) or a Rust panic (`panicked`). -/
inductive RtAbort
  | err (msg : String)
  | panicked (msg : String)
  deriving DecidableEq

/-- `Interpreter::divide_values` from src/interpreter.rs. -/
def divide_values : Value → Value → Except String Value
  | .Number left, .Number right => .ok (.Number (left.div right))
  | _, _ => .error "To divide operands must be two numbers"

/-- `Interpreter::multiply_values` from src/interpreter.rs. -/
def multiply_values : Value → Value → Except String Value
  | .Number left, .Number right => .ok (.Number (left.mul right))
  | _, _ => .error "To multiply operands must be two numbers"

/-- `Interpreter::add_values` from src/interpreter.rs. -/
def add_values : Value → Value → Except String Value
  | .Number left, .Number right => .ok (.Number (left.add right))
  | .String left, .String right => .ok (.String (left ++ right))
  | _, _ => .error "To add operands must be two numbers or two strings"

/-- `Interpreter::subtract_values` from src/interpreter.rs. -/
def subtract_values : Value → Value → Except String Value
  | .Number left, .Number right => .ok (.Number (left.sub right))
  | _, _ => .error "To subtract operands must be two numbers"

/-- `Interpreter::compare_lt` from src/interpreter.rs. -/
def compare_lt : Value → Value → Except String Value
  | .Number left, .Number right => .ok (.Boolean (left.blt right))
  | _, _ => .error "To compare operands must be two numbers"

/-- `Interpreter::compare_gt` from src/interpreter.rs. -/
def compare_gt : Value → Value → Except String Value
  | .Number left, .Number right => .ok (.Boolean (right.blt left))
  | _, _ => .error "To compare operands must be two numbers"

/-- `Interpreter::compare_le` from src/interpreter.rs. -/
def compare_le : Value → Value → Except String Value
  | .Number left, .Number right => .ok (.Boolean (left.ble right))
  | _, _ => .error "To compare operands must be two numbers"

/-- `Interpreter::compare_ge` from src/interpreter.rs. -/
def compare_ge : Value → Value → Except String Value
  | .Number left, .Number right => .ok (.Boolean (right.ble left))
  | _, _ => .error "To compare operands must be two numbers"

/-- `Interpreter::is_equal` from src/interpreter.rs (derived structural
equality of `Value`). -/
def is_equal (left right : Value) : Except String Value :=
  .ok (.Boolean (decide (left = right)))

/-- `Interpreter::is_not_equal` from src/interpreter.rs. -/
def is_not_equal (left right : Value) : Except String Value :=
  .ok (.Boolean (decide (left ≠ right)))

/-- Dispatch of `Interpreter::evaluate_binary` on the operator token, after
both operands have been evaluated.  The catch-all arm of the Rust `match` is
`todo!()`, a panic. -/
def binary_op (operator : TokenInfo) (left right : Value) : Except RtAbort Value :=
  let lift : Except String Value → Except RtAbort Value := fun r =>
    match r with
    | .ok v => .ok v
    | .error e => .error (.err e)
  match operator.token_type with
  | .Plus => lift (add_values left right)
  | .Minus => lift (subtract_values left right)
  | .Star => lift (multiply_values left right)
  | .Slash => lift (divide_values left right)
  | .Less => lift (compare_lt left right)
  | .LessEqual => lift (compare_le left right)
  | .Greater => lift (compare_gt left right)
  | .GreaterEqual => lift (compare_ge left right)
  | .EqualEqual => lift (is_equal left right)
  | .BangEqual => lift (is_not_equal left right)
  | _ => .error (.panicked "not yet implemented")

/-- `Interpreter::evaluate` from src/interpreter.rs.  The environment is
threaded explicitly: the returned environment reflects all assignments
performed before the result (or before the abort) was produced. -/
def evaluate : Environment → Expr → Except RtAbort Value × Environment
  | env, .Literal v => (.ok v, env)
  | env, .Grouping e => evaluate env e
  | env, .Variable t =>
    match env.get t.lexeme with
    | .ok v => (.ok v, env)
    | .error e => (.error (.err e), env)
  | env, .Assign name value =>
    match evaluate env value with
    | (.error a, env') => (.error a, env')
    | (.ok v, env') =>
      match env'.assign name.lexeme v with
      | .ok env'' => (.ok v, env'')
      | .error e => (.error (.err e), env')
  | env, .Unary operator right =>
    match evaluate env right with
    | (.error a, env') => (.error a, env')
    | (.ok rv, env') =>
      match operator.token_type with
      | .Minus =>
        match rv with
        | .Number n => (.ok (.Number n.neg), env')
        | _ => (.error (.err "Operand must be number"), env')
      | .Bang => (.ok (.Boolean (!rv.is_truthy)), env')
      | _ =>
        (.error (.err "IllegalOperation wrong operator for unary expression"), env')
  | env, .Binary left operator right =>
    match evaluate env left with
    | (.error a, env') => (.error a, env')
    | (.ok lv, env') =>
      match evaluate env' right with
      | (.error a, env'') => (.error a, env'')
      | (.ok rv, env'') => (binary_op operator lv rv, env'')
  | env, .Logical left operator right =>
    match evaluate env left with
    | (.error a, env') => (.error a, env')
    | (.ok lv, env') =>
      match operator.token_type with
      | .And => if !lv.is_truthy then (.ok lv, env') else evaluate env' right
      | .Or => if lv.is_truthy then (.ok lv, env') else evaluate env' right
      | _ =>
        (.error (.err "For logical operation operator must be one of and or or"), env')

/-- Modelled from the spec: `format_number` lives in `src/util.rs`, which is
not among the provided sources.  The spec requires integral-valued numbers to
render without a trailing `.0` (so `3`, not `3.0`) and non-integral values
with full precision; integral rationals render as their integer numerator,
and the non-integral branch (not exercised by any claim) renders the raw
rational. -/
def format_number (q : Num) : String :=
  if q.den = 1 then toString q.num else toString q.num ++ "/" ++ toString q.den

/-- The `Display` implementation of `Value` from src/parser.rs. -/
def displayValue : Value → String
  | .String s => s
  | .Number n => format_number n
  | .Boolean b => if b then "true" else "false"
  | .Nil => "nil"

/-- Interpreter state: the persistent environment plus the lines written to
standard output by `print`, in order. -/
structure InterpState where
  env : Environment
  out : List String
  deriving DecidableEq

/-- The fresh state of `Interpreter::new`. -/
def InterpState.new : InterpState := ⟨Environment.new, []⟩

/-- `Interpreter::execute_variable_declaration` from src/interpreter.rs. -/
def execute_variable_declaration (st : InterpState) (name : TokenInfo)
    (init : Option Expr) : Except RtAbort Unit × InterpState :=
  match init with
  | none => (.ok (), { st with env := st.env.define name.lexeme .Nil })
  | some e =>
    match evaluate st.env e with
    | (.error a, env') => (.error a, { st with env := env' })
    | (.ok v, env') => (.ok (), { st with env := env'.define name.lexeme v })

/-- `Interpreter::execute_print` from src/interpreter.rs: evaluate, then
write the display form of the value to the output channel. -/
def execute_print (st : InterpState) (e : Expr) : Except RtAbort Unit × InterpState :=
  match evaluate st.env e with
  | (.error a, env') => (.error a, { st with env := env' })
  | (.ok v, env') => (.ok (), { env := env', out := st.out ++ [displayValue v] })

/-- `Interpreter::execute_expression` from src/interpreter.rs. -/
def execute_expression (st : InterpState) (e : Expr) : Except RtAbort Unit × InterpState :=
  match evaluate st.env e with
  | (.error a, env') => (.error a, { st with env := env' })
  | (.ok _, env') => (.ok (), { st with env := env' })

mutual

/-- `Interpreter::execute` from src/interpreter.rs, with fuel. -/
def execute : Nat → InterpState → Stmt → Option (Except RtAbort Unit × InterpState)
  | 0, _, _ => none
  | n + 1, st, stmt =>
    match stmt with
    | .Expression e => some (execute_expression st e)
    | .Print e => some (execute_print st e)
    | .Var name init => some (execute_variable_declaration st name init)
    | .Block stmts => execute_block n st stmts
    | .If c t e => execute_if n st c t e
    | .While c b => execute_while n st c b

/-- `Interpreter::execute_block` from src/interpreter.rs: push a scope, run
the children with the `?` operator (so a child abort returns immediately,
without reaching the pop), then pop the scope. -/
def execute_block : Nat → InterpState → List Stmt → Option (Except RtAbort Unit × InterpState)
  | 0, _, _ => none
  | n + 1, st, stmts =>
    match execute_seq n { st with env := st.env.jump_in_scope } stmts with
    | none => none
    | some (.error a, st2) => some (.error a, st2)
    | some (.ok _, st2) =>
      match st2.env.jump_out_scope with
      | some env' => some (.ok (), { st2 with env := env' })
      | none => some (.error (.panicked "Try delete global scope"), st2)

/-- The statement loop shared by `Interpreter::interpret` and the body of
`execute_block`: run statements in order, stopping at the first abort. -/
def execute_seq : Nat → InterpState → List Stmt → Option (Except RtAbort Unit × InterpState)
  | 0, _, _ => none
  | _ + 1, st, [] => some (.ok (), st)
  | n + 1, st, s :: rest =>
    match execute n st s with
    | none => none
    | some (.error a, st') => some (.error a, st')
    | some (.ok _, st') => execute_seq n st' rest

/-- `Interpreter::execute_if` from src/interpreter.rs. -/
def execute_if : Nat → InterpState → Expr → Stmt → Option Stmt →
    Option (Except RtAbort Unit × InterpState)
  | 0, _, _, _, _ => none
  | n + 1, st, c, t, e =>
    match evaluate st.env c with
    | (.error a, env') => some (.error a, { st with env := env' })
    | (.ok v, env') =>
      if v.is_truthy then execute n { st with env := env' } t
      else
        match e with
        | some eb => execute n { st with env := env' } eb
        | none => some (.ok (), { st with env := env' })

/-- `Interpreter::execute_while` from src/interpreter.rs: re-evaluate the
condition before every iteration, including the first. -/
def execute_while : Nat → InterpState → Expr → Stmt →
    Option (Except RtAbort Unit × InterpState)
  | 0, _, _, _ => none
  | n + 1, st, c, b =>
    match evaluate st.env c with
    | (.error a, env') => some (.error a, { st with env := env' })
    | (.ok v, env') =>
      if v.is_truthy then
        match execute n { st with env := env' } b with
        | none => none
        | some (.error a, st') => some (.error a, st')
        | some (.ok _, st') => execute_while n st' c b
      else some (.ok (), { st with env := env' })

end

/-- `Interpreter::interpret` from src/interpreter.rs: execute the top-level
statements in order against the persistent state. -/
def interpret (n : Nat) (st : InterpState) (stmts : List Stmt) :
    Option (Except RtAbort Unit × InterpState) :=
  execute_seq n st stmts

/-! ## The scanner (src/scanner.rs) -/

/-- A scanner panic: out-of-bounds indexing in `current_char`, or the
explicit `panic!` on an unterminated string literal. -/
inductive SPanic
  | indexOutOfBounds
  | unterminatedString (s : String) (line : Nat)
  deriving DecidableEq

/-- Scanner state from src/scanner.rs.  The `println!` diagnostic for an
unexpected character is modelled by recording the offending character in
`diags`. -/
structure SState where
  source : List Char
  tokens : List TokenInfo
  start : Nat
  current : Nat
  line : Nat
  diags : List Char
  deriving DecidableEq

/-- The keyword table built in `Scanner::new`. -/
def reserved_words : List (String × TokenType) :=
  [("and", .And), ("class", .Class), ("else", .Else), ("false", .False),
   ("fun", .Fun), ("for", .For), ("if", .If), ("nil", .Nil), ("or", .Or),
   ("print", .Print), ("return", .Return), ("super", .Super), ("this", .This),
   ("true", .True), ("var", .Var), ("while", .While)]

/-- Keyword lookup (`reserved_words.get`). -/
def lookupReserved : List (String × TokenType) → String → Option TokenType
  | [], _ => none
  | (k, t) :: rest, s => if k = s then some t else lookupReserved rest s

/-- `Scanner::is_at_end`. -/
def SState.is_at_end (st : SState) : Bool := st.source.length ≤ st.current

/-- `Scanner::current_char` indexes `source[current]`; `none` is the
out-of-bounds case, on which Rust panics. -/
def SState.current_char (st : SState) : Option Char := st.source.get? st.current

/-- `Scanner::advance`: read the current character (panicking when past the
end), bump the line counter on a newline, and move on. -/
def advanceS (st : SState) : Except SPanic (Char × SState) :=
  match st.current_char with
  | none => .error .indexOutOfBounds
  | some c =>
    .ok (c, { st with
              line := if c = '\n' then st.line + 1 else st.line,
              current := st.current + 1 })

/-- `Scanner::match_char`. -/
def match_charS (st : SState) (expected : Char) : Bool × SState :=
  if st.is_at_end then (false, st)
  else if st.current_char ≠ some expected then (false, st)
  else (true, { st with current := st.current + 1 })

/-- `Scanner::peek`. -/
def SState.peek (st : SState) : Option Char :=
  if st.is_at_end then none else st.current_char

/-- `Scanner::peek_next`. -/
def SState.peek_next (st : SState) : Option Char := st.source.get? (st.current + 1)

/-- `Scanner::add_token`. -/
def add_tokenS (st : SState) (t : TokenType) (lexeme : String) : SState :=
  { st with tokens := st.tokens ++ [⟨t, st.line, lexeme, none⟩] }

/-- `Scanner::add_number_token`. -/
def add_number_tokenS (st : SState) (lexeme : String) (n : Num) : SState :=
  { st with tokens := st.tokens ++ [⟨.Number, st.line, lexeme, some n⟩] }

/-- `Scanner::is_digit`. -/
def is_digit (c : Char) : Bool := '0' ≤ c && c ≤ '9'

/-- The source slice `source[start..current]`, the lexeme of the token being
scanned. -/
def SState.lexeme_slice (st : SState) : List Char :=
  (st.source.drop st.start).take (st.current - st.start)

/-- The numeric value of a digit character. -/
def digitVal (c : Char) : Nat := c.toNat - '0'.toNat

/-- The effect of `str::parse::<f64>` on the scanner's numeric lexemes
(digits, optionally followed by a point and at least one digit).  Such a
lexeme denotes a decimal rational, which is what is returned; `f64` rounding
is not modelled, and every numeric literal appearing in a concrete theorem
is a small integer, on which `f64` is exact. -/
def parseNumber (cs : List Char) : Num :=
  let ip := cs.takeWhile is_digit
  let rest := cs.dropWhile is_digit
  let fr := rest.drop 1
  let intPart : Nat := ip.foldl (fun a c => a * 10 + digitVal c) 0
  let fracPart : Nat := fr.foldl (fun a c => a * 10 + digitVal c) 0
  mkNum (intPart * 10 ^ fr.length + fracPart) (10 ^ fr.length)

/-- The `//` comment loop in `Scanner::scan_token`: advance while the next
character is not a newline.  At end of input `peek` returns `None`, which is
not `Some('\n')`, so the loop advances again and `current_char` panics. -/
def commentLoop : Nat → SState → Option (Except SPanic SState)
  | 0, _ => none
  | n + 1, st =>
    if st.peek = some '\n' then some (.ok st)
    else
      match advanceS st with
      | .error p => some (.error p)
      | .ok (_, st') => commentLoop n st'

/-- The loop of `Scanner::identifier`: consume an ASCII-alphanumeric run. -/
def identifierLoop : Nat → SState → Option SState
  | 0, _ => none
  | n + 1, st =>
    match st.peek with
    | some c =>
      if c.isAlphanum then
        match advanceS st with
        | .error _ => none
        | .ok (_, st') => identifierLoop n st'
      else some st
    | none => some st

/-- `Scanner::identifier`: scan the run, then retag it as a keyword when the
lexeme is in the reserved-word table. -/
def identifierS (n : Nat) (st : SState) : Option SState :=
  match identifierLoop n st with
  | none => none
  | some st' =>
    let ident : String := ⟨st'.lexeme_slice⟩
    match lookupReserved reserved_words ident with
    | some tt => some (add_tokenS st' tt ident)
    | none => some (add_tokenS st' .Identifier ident)

/-- The loop of `Scanner::number`: consume digits, and a `.` only when a
digit follows it. -/
def numberLoop : Nat → SState → Option SState
  | 0, _ => none
  | n + 1, st =>
    let after_next_is_digit :=
      match st.peek_next with
      | some c => is_digit c
      | none => false
    match st.peek with
    | some c =>
      if is_digit c || (c = '.' && after_next_is_digit) then
        match advanceS st with
        | .error _ => none
        | .ok (_, st') => numberLoop n st'
      else some st
    | none => some st

/-- `Scanner::number`: scan the literal and parse its lexeme. -/
def numberS (n : Nat) (st : SState) : Option SState :=
  match numberLoop n st with
  | none => none
  | some st' =>
    let cs := st'.lexeme_slice
    some (add_number_tokenS st' ⟨cs⟩ (parseNumber cs))

/-- `Scanner::string`: accumulate characters up to the closing quote;
reaching end of input is the unterminated-string `panic!`. -/
def stringLoop : Nat → SState → String → Option (Except SPanic SState)
  | 0, _, _ => none
  | n + 1, st, s =>
    match st.peek with
    | none => some (.error (.unterminatedString s st.line))
    | some '"' =>
      match advanceS st with
      | .error p => some (.error p)
      | .ok (_, st') => some (.ok (add_tokenS st' .String s))
    | some _ =>
      match advanceS st with
      | .error p => some (.error p)
      | .ok (c, st') => stringLoop n st' (s.push c)

/-- `Scanner::scan_token` from src/scanner.rs: consume one character and
dispatch on it; an unexpected character is reported and skipped. -/
def scan_token (n : Nat) (st : SState) : Option (Except SPanic SState) :=
  match advanceS st with
  | .error p => some (.error p)
  | .ok (c, st1) =>
    if c.isWhitespace then some (.ok st1)
    else if c = '.' then some (.ok (add_tokenS st1 .Dot "."))
    else if c = ',' then some (.ok (add_tokenS st1 .Comma ","))
    else if c = ';' then some (.ok (add_tokenS st1 .Semicolon ";"))
    else if c = '+' then some (.ok (add_tokenS st1 .Plus "+"))
    else if c = '-' then some (.ok (add_tokenS st1 .Minus "-"))
    else if c = '*' then some (.ok (add_tokenS st1 .Star "*"))
    else if c = '(' then some (.ok (add_tokenS st1 .LeftParen "("))
    else if c = ')' then some (.ok (add_tokenS st1 .RightParen ")"))
    else if c = '\x7b' then some (.ok (add_tokenS st1 .LeftBrace "\x7b"))
    else if c = '\x7d' then some (.ok (add_tokenS st1 .RightBrace "\x7d"))
    else if c = '!' then
      match match_charS st1 '=' with
      | (true, st2) => some (.ok (add_tokenS st2 .BangEqual "!="))
      | (false, st2) => some (.ok (add_tokenS st2 .Bang "!"))
    else if c = '=' then
      match match_charS st1 '=' with
      | (true, st2) => some (.ok (add_tokenS st2 .EqualEqual "=="))
      | (false, st2) => some (.ok (add_tokenS st2 .Equal "="))
    else if c = '<' then
      match match_charS st1 '=' with
      | (true, st2) => some (.ok (add_tokenS st2 .LessEqual "<="))
      | (false, st2) => some (.ok (add_tokenS st2 .Less "<"))
    else if c = '>' then
      match match_charS st1 '=' with
      | (true, st2) => some (.ok (add_tokenS st2 .GreaterEqual ">="))
      | (false, st2) => some (.ok (add_tokenS st2 .Greater ">"))
    else if c = '/' then
      match match_charS st1 '/' with
      | (true, st2) => commentLoop n st2
      | (false, st2) => some (.ok (add_tokenS st2 .Slash "/"))
    else if c = '"' then stringLoop n st1 ""
    else if is_digit c then (numberS n st1).map .ok
    else if c.isAlpha then (identifierS n st1).map .ok
    else some (.ok { st1 with diags := st1.diags ++ [c] })

/-- The loop of `Scanner::scan_tokens`: scan until the end of input, then
append the end-of-input token. -/
def scan_tokens : Nat → SState → Option (Except SPanic SState)
  | 0, _ => none
  | n + 1, st =>
    if st.is_at_end then some (.ok (add_tokenS st .EOF ""))
    else
      match scan_token n { st with start := st.current } with
      | none => none
      | some (.error p) => some (.error p)
      | some (.ok st') => scan_tokens n st'

/-- `Scanner::new` followed by `scan_tokens` on a source text: the token
sequence together with the reported unexpected characters, or a panic. -/
def scan (n : Nat) (srcText : String) :
    Option (Except SPanic (List TokenInfo × List Char)) :=
  match scan_tokens n ⟨srcText.toList, [], 0, 0, 1, []⟩ with
  | none => none
  | some (.error p) => some (.error p)
  | some (.ok st) => some (.ok (st.tokens, st.diags))

/-! ## The parser (src/parser.rs) -/

/-- `ParsingErrorType` from src/parser.rs. -/
inductive ParsingErrorType
  | Expr
  | Stmt
  deriving DecidableEq

/-- `ParsingError` from src/parser.rs; `expression` is the recovered
expression of an expression statement that lacked its semicolon. -/
structure ParsingError where
  error_type : ParsingErrorType
  message : String
  line : Nat
  expression : Option Expr
  deriving DecidableEq

/-- Parser state from src/parser.rs: the token sequence and a cursor. -/
structure PState where
  tokens : List TokenInfo
  current : Nat
  deriving DecidableEq

/-- A junk token for the out-of-range case of `Parser::peak`; unreachable on
the end-of-input-terminated token sequences the scanner produces. -/
def junkToken : TokenInfo := ⟨.EOF, 0, "", none⟩

/-- `Parser::peak`. -/
def PState.peak (st : PState) : TokenInfo := st.tokens.getD st.current junkToken

/-- `Parser::previous` (`tokens[current - 1]`). -/
def PState.previous (st : PState) : TokenInfo := st.tokens.getD (st.current - 1) junkToken

/-- `Parser::is_at_end`. -/
def PState.is_at_end (st : PState) : Bool := st.peak.token_type = .EOF

/-- `Parser::check`. -/
def checkP (st : PState) (t : TokenType) : Bool :=
  if st.is_at_end then false else st.peak.token_type = t

/-- `Parser::advance`. -/
def advanceP (st : PState) : PState :=
  if st.is_at_end then st else { st with current := st.current + 1 }

/-- `Parser::match_tokens`: advance past the current token when its type is
one of the given ones. -/
def match_tokensP (st : PState) : List TokenType → Bool × PState
  | [] => (false, st)
  | t :: rest => if checkP st t then (true, advanceP st) else match_tokensP st rest

/-- `Parser::get_matched_token`. -/
def get_matched_tokenP (st : PState) (ts : List TokenType) : Option TokenInfo × PState :=
  match match_tokensP st ts with
  | (true, st') => (some st'.previous, st')
  | (false, st') => (none, st')

/-- `Parser::new_error`: an error at the line of the previous token. -/
def new_errorP (st : PState) (t : ParsingErrorType) (message : String)
    (expression : Option Expr) : ParsingError :=
  ⟨t, message, st.previous.line, expression⟩

/-- `Parser::new_expr_stmt_error`. -/
def new_expr_stmt_errorP (st : PState) (message : String) (e : Expr) : ParsingError :=
  new_errorP st .Stmt message (some e)

/-- `Parser::new_stmt_error`. -/
def new_stmt_errorP (st : PState) (message : String) : ParsingError :=
  new_errorP st .Stmt message none

/-- `Parser::new_expr_error`. -/
def new_expr_errorP (st : PState) (message : String) : ParsingError :=
  new_errorP st .Expr message none

/-- `Parser::new_expr_error_on_line`. -/
def new_expr_error_on_lineP (message : String) (line : Nat) : ParsingError :=
  ⟨.Expr, message, line, none⟩

mutual

/-- `Parser::expression` from src/parser.rs. -/
def expressionF : Nat → PState → Option (Except ParsingError Expr × PState)
  | 0, _ => none
  | n + 1, st => assigmentF n st

/-- `Parser::assigment` from src/parser.rs: parse the left side, and on an
`=` parse the right side recursively; a non-`Variable` left side is an
expression error at the line of the `=` token. -/
def assigmentF : Nat → PState → Option (Except ParsingError Expr × PState)
  | 0, _ => none
  | n + 1, st =>
    match orF n st with
    | none => none
    | some (.error e, st1) => some (.error e, st1)
    | some (.ok expr, st1) =>
      match match_tokensP st1 [.Equal] with
      | (false, st2) => some (.ok expr, st2)
      | (true, st2) =>
        let equals_token := st2.previous
        match assigmentF n st2 with
        | none => none
        | some (.error e, st3) => some (.error e, st3)
        | some (.ok value, st3) =>
          match expr with
          | .Variable name => some (.ok (.Assign name value), st3)
          | _ =>
            some (.error (new_expr_error_on_lineP "Invalid assigment target"
              equals_token.line), st3)

/-- `Parser::or` from src/parser.rs. -/
def orF : Nat → PState → Option (Except ParsingError Expr × PState)
  | 0, _ => none
  | n + 1, st =>
    match andF n st with
    | none => none
    | some (.error e, st1) => some (.error e, st1)
    | some (.ok expr, st1) => orLoopF n expr st1

/-- The `while` loop of `Parser::or`. -/
def orLoopF : Nat → Expr → PState → Option (Except ParsingError Expr × PState)
  | 0, _, _ => none
  | n + 1, expr, st =>
    match match_tokensP st [.Or] with
    | (false, st1) => some (.ok expr, st1)
    | (true, st1) =>
      let operator := st1.previous
      match andF n st1 with
      | none => none
      | some (.error e, st2) => some (.error e, st2)
      | some (.ok right, st2) => orLoopF n (.Logical expr operator right) st2

/-- `Parser::and` from src/parser.rs. -/
def andF : Nat → PState → Option (Except ParsingError Expr × PState)
  | 0, _ => none
  | n + 1, st =>
    match equalityF n st with
    | none => none
    | some (.error e, st1) => some (.error e, st1)
    | some (.ok expr, st1) => andLoopF n expr st1

/-- The `while` loop of `Parser::and`. -/
def andLoopF : Nat → Expr → PState → Option (Except ParsingError Expr × PState)
  | 0, _, _ => none
  | n + 1, expr, st =>
    match match_tokensP st [.And] with
    | (false, st1) => some (.ok expr, st1)
    | (true, st1) =>
      let operator := st1.previous
      match equalityF n st1 with
      | none => none
      | some (.error e, st2) => some (.error e, st2)
      | some (.ok right, st2) => andLoopF n (.Logical expr operator right) st2

/-- `Parser::equality` from src/parser.rs. -/
def equalityF : Nat → PState → Option (Except ParsingError Expr × PState)
  | 0, _ => none
  | n + 1, st =>
    match comparisonF n st with
    | none => none
    | some (.error e, st1) => some (.error e, st1)
    | some (.ok expr, st1) => equalityLoopF n expr st1

/-- The `while` loop of `Parser::equality`. -/
def equalityLoopF : Nat → Expr → PState → Option (Except ParsingError Expr × PState)
  | 0, _, _ => none
  | n + 1, expr, st =>
    match match_tokensP st [.BangEqual, .EqualEqual] with
    | (false, st1) => some (.ok expr, st1)
    | (true, st1) =>
      let operator := st1.previous
      match comparisonF n st1 with
      | none => none
      | some (.error e, st2) => some (.error e, st2)
      | some (.ok right, st2) => equalityLoopF n (.Binary expr operator right) st2

/-- `Parser::comparison` from src/parser.rs. -/
def comparisonF : Nat → PState → Option (Except ParsingError Expr × PState)
  | 0, _ => none
  | n + 1, st =>
    match termF n st with
    | none => none
    | some (.error e, st1) => some (.error e, st1)
    | some (.ok expr, st1) => comparisonLoopF n expr st1

/-- The `while` loop of `Parser::comparison`. -/
def comparisonLoopF : Nat → Expr → PState → Option (Except ParsingError Expr × PState)
  | 0, _, _ => none
  | n + 1, expr, st =>
    match match_tokensP st [.Less, .LessEqual, .Greater, .GreaterEqual] with
    | (false, st1) => some (.ok expr, st1)
    | (true, st1) =>
      let operator := st1.previous
      match termF n st1 with
      | none => none
      | some (.error e, st2) => some (.error e, st2)
      | some (.ok right, st2) => comparisonLoopF n (.Binary expr operator right) st2

/-- `Parser::term` from src/parser.rs. -/
def termF : Nat → PState → Option (Except ParsingError Expr × PState)
  | 0, _ => none
  | n + 1, st =>
    match factorF n st with
    | none => none
    | some (.error e, st1) => some (.error e, st1)
    | some (.ok expr, st1) => termLoopF n expr st1

/-- The `while` loop of `Parser::term`. -/
def termLoopF : Nat → Expr → PState → Option (Except ParsingError Expr × PState)
  | 0, _, _ => none
  | n + 1, expr, st =>
    match match_tokensP st [.Minus, .Plus] with
    | (false, st1) => some (.ok expr, st1)
    | (true, st1) =>
      let operator := st1.previous
      match factorF n st1 with
      | none => none
      | some (.error e, st2) => some (.error e, st2)
      | some (.ok right, st2) => termLoopF n (.Binary expr operator right) st2

/-- `Parser::factor` from src/parser.rs. -/
def factorF : Nat → PState → Option (Except ParsingError Expr × PState)
  | 0, _ => none
  | n + 1, st =>
    match unaryF n st with
    | none => none
    | some (.error e, st1) => some (.error e, st1)
    | some (.ok expr, st1) => factorLoopF n expr st1

/-- The `while` loop of `Parser::factor`. -/
def factorLoopF : Nat → Expr → PState → Option (Except ParsingError Expr × PState)
  | 0, _, _ => none
  | n + 1, expr, st =>
    match match_tokensP st [.Star, .Slash] with
    | (false, st1) => some (.ok expr, st1)
    | (true, st1) =>
      let operator := st1.previous
      match unaryF n st1 with
      | none => none
      | some (.error e, st2) => some (.error e, st2)
      | some (.ok right, st2) => factorLoopF n (.Binary expr operator right) st2

/-- `Parser::unary` from src/parser.rs. -/
def unaryF : Nat → PState → Option (Except ParsingError Expr × PState)
  | 0, _ => none
  | n + 1, st =>
    match match_tokensP st [.Bang, .Minus] with
    | (true, st1) =>
      let operator := st1.previous
      match unaryF n st1 with
      | none => none
      | some (.error e, st2) => some (.error e, st2)
      | some (.ok right, st2) => some (.ok (.Unary operator right), st2)
    | (false, st1) => primaryF n st1

/-- `Parser::primary` from src/parser.rs.  The `unwrap` of a number token's
payload is modelled with a default of `0` (the scanner always sets the
payload on `Number` tokens).  Note that in the fall-through case the result
of matching `(` is discarded, after which the parser unconditionally
recurses into `expression` — faithful to the source, where a token that
starts no expression therefore re-enters `expression` at the same
position. -/
def primaryF : Nat → PState → Option (Except ParsingError Expr × PState)
  | 0, _ => none
  | n + 1, st =>
    match match_tokensP st [.True] with
    | (true, st1) => some (.ok (.Literal (.Boolean true)), st1)
    | (false, st1) =>
    match match_tokensP st1 [.False] with
    | (true, st2) => some (.ok (.Literal (.Boolean false)), st2)
    | (false, st2) =>
    match match_tokensP st2 [.Nil] with
    | (true, st3) => some (.ok (.Literal .Nil), st3)
    | (false, st3) =>
    match match_tokensP st3 [.String] with
    | (true, st4) => some (.ok (.Literal (.String st4.previous.lexeme)), st4)
    | (false, st4) =>
    match match_tokensP st4 [.Number] with
    | (true, st5) => some (.ok (.Literal (.Number (st5.previous.number.getD 0))), st5)
    | (false, st5) =>
    match match_tokensP st5 [.Identifier] with
    | (true, st6) => some (.ok (.Variable st6.previous), st6)
    | (false, st6) =>
    let (_, st7) := match_tokensP st6 [.LeftParen]
    match expressionF n st7 with
    | none => none
    | some (.error e, st8) => some (.error e, st8)
    | some (.ok expr, st8) =>
      match match_tokensP st8 [.RightParen] with
      | (true, st9) => some (.ok (.Grouping expr), st9)
      | (false, st9) =>
        some (.error (new_expr_errorP st9 "Unterminated parenthesize"), st9)

end

mutual

/-- `Parser::declaration` from src/parser.rs. -/
def declarationF : Nat → PState → Option (Except (List ParsingError) Stmt × PState)
  | 0, _ => none
  | n + 1, st =>
    match match_tokensP st [.Var] with
    | (true, st1) => var_declarationF n st1
    | (false, st1) => statmentF n st1

/-- `Parser::statment` from src/parser.rs. -/
def statmentF : Nat → PState → Option (Except (List ParsingError) Stmt × PState)
  | 0, _ => none
  | n + 1, st =>
    match match_tokensP st [.For] with
    | (true, st1) => for_statmentF n st1
    | (false, st1) =>
    match match_tokensP st1 [.While] with
    | (true, st2) => while_statmentF n st2
    | (false, st2) =>
    match match_tokensP st2 [.Print] with
    | (true, st3) => print_statmentF n st3
    | (false, st3) =>
    match match_tokensP st3 [.LeftBrace] with
    | (true, st4) => block_statmentF n st4
    | (false, st4) =>
    match match_tokensP st4 [.If] with
    | (true, st5) => if_statmentF n st5
    | (false, st5) => expression_statmentF n st5

/-- `Parser::var_declaration` from src/parser.rs. -/
def var_declarationF : Nat → PState → Option (Except (List ParsingError) Stmt × PState)
  | 0, _ => none
  | n + 1, st =>
    match get_matched_tokenP st [.Identifier] with
    | (none, st1) => some (.error [new_stmt_errorP st1 "Expect variable name."], st1)
    | (some name, st1) =>
      match match_tokensP st1 [.Equal] with
      | (true, st2) =>
        match expressionF n st2 with
        | none => none
        | some (.error e, st3) => some (.error [e], st3)
        | some (.ok e, st3) =>
          match match_tokensP st3 [.Semicolon] with
          | (true, st4) => some (.ok (.Var name (some e)), st4)
          | (false, st4) =>
            some (.error [new_stmt_errorP st4
              "Expect \x27;\x27 after variable declaration."], st4)
      | (false, st2) =>
        match match_tokensP st2 [.Semicolon] with
        | (true, st3) => some (.ok (.Var name none), st3)
        | (false, st3) =>
          some (.error [new_stmt_errorP st3
            "Expect \x27;\x27 after variable declaration."], st3)

/-- `Parser::print_statment` from src/parser.rs. -/
def print_statmentF : Nat → PState → Option (Except (List ParsingError) Stmt × PState)
  | 0, _ => none
  | n + 1, st =>
    match expressionF n st with
    | none => none
    | some (.error e, st1) => some (.error [e], st1)
    | some (.ok expr, st1) =>
      match match_tokensP st1 [.Semicolon] with
      | (true, st2) => some (.ok (.Print expr), st2)
      | (false, st2) =>
        some (.error [new_stmt_errorP st2 "Expect \x27;\x27 after value"], st2)

/-- `Parser::expression_statment` from src/parser.rs: on a missing `;`, the
already-parsed expression is preserved inside the error. -/
def expression_statmentF : Nat → PState → Option (Except (List ParsingError) Stmt × PState)
  | 0, _ => none
  | n + 1, st =>
    match expressionF n st with
    | none => none
    | some (.error e, st1) => some (.error [e], st1)
    | some (.ok expr, st1) =>
      match match_tokensP st1 [.Semicolon] with
      | (true, st2) => some (.ok (.Expression expr), st2)
      | (false, st2) =>
        some (.error [new_expr_stmt_errorP st2
          "Expect \x27;\x27 after expression" expr], st2)

/-- `Parser::block_statment` from src/parser.rs: parse declarations until a
`\x7d` or end of input, accumulating errors instead of stopping at the first. -/
def block_statmentF : Nat → PState → Option (Except (List ParsingError) Stmt × PState)
  | 0, _ => none
  | n + 1, st =>
    match blockLoopF n st [] [] with
    | none => none
    | some ((stmts, errs), st1) =>
      match match_tokensP st1 [.RightBrace] with
      | (true, st2) =>
        if errs = [] then some (.ok (.Block stmts), st2) else some (.error errs, st2)
      | (false, st2) =>
        some (.error (errs ++ [new_stmt_errorP st2 "Expect \x27\x7d\x27 after block"]), st2)

/-- The declaration loop of `Parser::block_statment`. -/
def blockLoopF : Nat → PState → List Stmt → List ParsingError →
    Option ((List Stmt × List ParsingError) × PState)
  | 0, _, _, _ => none
  | n + 1, st, stmts, errs =>
    if !checkP st .RightBrace && !st.is_at_end then
      match declarationF n st with
      | none => none
      | some (.ok s, st') => blockLoopF n st' (stmts ++ [s]) errs
      | some (.error e, st') => blockLoopF n st' stmts (errs ++ e)
    else some ((stmts, errs), st)

/-- `Parser::if_statment` from src/parser.rs: accumulate the condition and
branch errors, producing the node only when no error was recorded. -/
def if_statmentF : Nat → PState → Option (Except (List ParsingError) Stmt × PState)
  | 0, _ => none
  | n + 1, st =>
    match match_tokensP st [.LeftParen] with
    | (false, st1) =>
      some (.error [new_stmt_errorP st1 "Expect \x27(\x27 after if ."], st1)
    | (true, st1) =>
      match expressionF n st1 with
      | none => none
      | some (condRes, st2) =>
        let errs0 : List ParsingError :=
          match condRes with
          | .error e => [e]
          | .ok _ => []
        let (rp, st3) := match_tokensP st2 [.RightParen]
        let errs1 :=
          if rp then errs0
          else errs0 ++ [new_stmt_errorP st3 "Expect \x27)\x27 after if condition."]
        match statmentF n st3 with
        | none => none
        | some (thenRes, st4) =>
          let errs2 :=
            match thenRes with
            | .error e => errs1 ++ e
            | .ok _ => errs1
          match match_tokensP st4 [.Else] with
          | (true, st5) =>
            match statmentF n st5 with
            | none => none
            | some (elseRes, st6) =>
              match condRes, thenRes, elseRes with
              | .ok c, .ok t, .ok e =>
                if errs2 = [] then some (.ok (.If c t (some e)), st6)
                else some (.error errs2, st6)
              | _, _, .error e => some (.error (errs2 ++ e), st6)
              | _, _, .ok _ => some (.error errs2, st6)
          | (false, st5) =>
            match condRes, thenRes with
            | .ok c, .ok t =>
              if errs2 = [] then some (.ok (.If c t none), st5)
              else some (.error errs2, st5)
            | _, _ => some (.error errs2, st5)

/-- `Parser::while_statment` from src/parser.rs. -/
def while_statmentF : Nat → PState → Option (Except (List ParsingError) Stmt × PState)
  | 0, _ => none
  | n + 1, st =>
    match match_tokensP st [.LeftParen] with
    | (false, st1) =>
      some (.error [new_stmt_errorP st1 "Expect \x27(\x27 after \x27while\x27."], st1)
    | (true, st1) =>
      match expressionF n st1 with
      | none => none
      | some (condRes, st2) =>
        let errs0 : List ParsingError :=
          match condRes with
          | .error e => [e]
          | .ok _ => []
        let (rp, st3) := match_tokensP st2 [.RightParen]
        let errs1 :=
          if rp then errs0
          else errs0 ++ [new_stmt_errorP st3 "Expect \x27)\x27 after condition."]
        match statmentF n st3 with
        | none => none
        | some (bodyRes, st4) =>
          match condRes, bodyRes with
          | .ok c, .ok b =>
            if errs1 = [] then some (.ok (.While c b), st4)
            else some (.error errs1, st4)
          | _, .error e => some (.error (errs1 ++ e), st4)
          | _, .ok _ => some (.error errs1, st4)

/-- `Parser::for_statment` from src/parser.rs: parse the three optional
clauses and the body, then desugar to nested `Block`/`While` nodes — a
missing condition becomes `Literal(true)`, and the wrappers for a missing
initializer or increment are omitted. -/
def for_statmentF : Nat → PState → Option (Except (List ParsingError) Stmt × PState)
  | 0, _ => none
  | n + 1, st =>
    match match_tokensP st [.LeftParen] with
    | (false, st1) =>
      some (.error [new_stmt_errorP st1 "Expect \x27(\x27 after \x27for\x27."], st1)
    | (true, st1) =>
      -- initializer clause; its parse errors propagate immediately (`?`)
      let initStep : Option (Except (List ParsingError) (Option Stmt) × PState) :=
        match match_tokensP st1 [.Var] with
        | (true, st2) =>
          match var_declarationF n st2 with
          | none => none
          | some (.error e, st3) => some (.error e, st3)
          | some (.ok s, st3) => some (.ok (some s), st3)
        | (false, st2) =>
          match match_tokensP st2 [.Semicolon] with
          | (true, st3) => some (.ok none, st3)
          | (false, st3) =>
            match expression_statmentF n st3 with
            | none => none
            | some (.error e, st4) => some (.error e, st4)
            | some (.ok s, st4) => some (.ok (some s), st4)
      match initStep with
      | none => none
      | some (.error e, stE) => some (.error e, stE)
      | some (.ok init, st4) =>
        -- condition clause
        let condStep : Option ((Option Expr × List ParsingError) × PState) :=
          if !checkP st4 .Semicolon then
            match expressionF n st4 with
            | none => none
            | some (.ok c, st5) => some ((some c, []), st5)
            | some (.error e, st5) => some ((none, [e]), st5)
          else some ((none, []), st4)
        match condStep with
        | none => none
        | some ((condition, errs0), st5) =>
          match match_tokensP st5 [.Semicolon] with
          | (false, st6) =>
            some (.error (errs0 ++
              [new_stmt_errorP st6 "Expect \x27;\x27 after loop condition."]), st6)
          | (true, st6) =>
            -- increment clause
            let incrStep : Option ((Option Expr × List ParsingError) × PState) :=
              if !checkP st6 .RightParen then
                match expressionF n st6 with
                | none => none
                | some (.ok i, st7) => some ((some i, errs0), st7)
                | some (.error e, st7) => some ((none, errs0 ++ [e]), st7)
              else some ((none, errs0), st6)
            match incrStep with
            | none => none
            | some ((increment, errs1), st7) =>
              let (rp, st8) := match_tokensP st7 [.RightParen]
              let errs2 :=
                if rp then errs1
                else errs1 ++ [new_stmt_errorP st8 "Expect \x27)\x27 after for clauses."]
              match statmentF n st8 with
              | none => none
              | some (.error e, st9) => some (.error (errs2 ++ e), st9)
              | some (.ok body0, st9) =>
                if errs2 = [] then
                  let body1 :=
                    match increment with
                    | some i => Stmt.Block [body0, .Expression i]
                    | none => body0
                  let cond := condition.getD (.Literal (.Boolean true))
                  let body2 := Stmt.While cond body1
                  let body3 :=
                    match init with
                    | some i => Stmt.Block [i, body2]
                    | none => body2
                  some (.ok body3, st9)
                else some (.error errs2, st9)

end

/-- The top-level loop of `Parser::parse`: try a declaration at each
statement boundary, keeping the parsed statements and accumulating the
errors of failed ones. -/
def parseLoopF : Nat → PState → List Stmt → List ParsingError →
    Option ((List Stmt × List ParsingError) × PState)
  | 0, _, _, _ => none
  | n + 1, st, stmts, errs =>
    if st.is_at_end then some ((stmts, errs), st)
    else
      match declarationF n st with
      | none => none
      | some (.ok d, st') => parseLoopF n st' (stmts ++ [d]) errs
      | some (.error e, st') => parseLoopF n st' stmts (errs ++ e)

/-- `Parser::parse` from src/parser.rs: `Ok` exactly when no error was
recorded over the whole input, `Err` with the full error list otherwise. -/
def parseF (n : Nat) (tokens : List TokenInfo) :
    Option (Except (List ParsingError) (List Stmt)) :=
  match parseLoopF n ⟨tokens, 0⟩ [] [] with
  | none => none
  | some ((stmts, errs), _) =>
    some (if errs = [] then .ok stmts else .error errs)

/-! ## The IEEE model for the division claim -/

/-- An IEEE-754 binary64 value as needed to state the division claim:
finite values (with exact payload), the two infinities, and NaN. -/
inductive F64
  | finite (q : Num)
  | posInf
  | negInf
  | nan
  deriving DecidableEq

/-- IEEE-754 double division on the cases relevant here: a finite quotient
is exact (`f64` rounding is not modelled); dividing a nonzero finite number
by zero gives the correspondingly signed infinity; `0/0` gives NaN;
infinity and NaN operands follow IEEE-754.  The sign of zero is not
modelled: a zero result is plain `finite 0`. -/
def F64.div : F64 → F64 → F64
  | .nan, _ => .nan
  | _, .nan => .nan
  | .finite a, .finite b =>
    if b.num = 0 then
      if a.num = 0 then .nan
      else if 0 < a.num then .posInf else .negInf
    else .finite (a.div b)
  | .finite _, .posInf => .finite 0
  | .finite _, .negInf => .finite 0
  | .posInf, .finite b => if b.num < 0 then .negInf else .posInf
  | .negInf, .finite b => if b.num < 0 then .posInf else .negInf
  | .posInf, .posInf => .nan
  | .posInf, .negInf => .nan
  | .negInf, .posInf => .nan
  | .negInf, .negInf => .nan

/-- `Value` with the `f64` payload read in the IEEE model, for the division
claim. -/
inductive Value64
  | String (s : String)
  | Number (n : F64)
  | Boolean (b : Bool)
  | Nil
  deriving DecidableEq

/-- `Interpreter::divide_values` from src/interpreter.rs, transcribed over
the IEEE value model. -/
def divide_values64 : Value64 → Value64 → Except String Value64
  | .Number left, .Number right => .ok (.Number (left.div right))
  | _, _ => .error "To divide operands must be two numbers"

/-! ## Concrete tokens, token sequences and syntax trees used by the claims -/

/-- The identifier token `a` (line 1). -/
def aTok : TokenInfo := ⟨.Identifier, 1, "a", none⟩

/-- The identifier token `i` (line 1). -/
def iTok : TokenInfo := ⟨.Identifier, 1, "i", none⟩

/-- The identifier token `x` (line 1). -/
def xTok : TokenInfo := ⟨.Identifier, 1, "x", none⟩

/-- A `;` token (line 1). -/
def semiTok : TokenInfo := ⟨.Semicolon, 1, ";", none⟩

/-- The end-of-input token (line 1). -/
def eofTok : TokenInfo := ⟨.EOF, 1, "", none⟩

/-- An `=` token (line 1). -/
def eqTok : TokenInfo := ⟨.Equal, 1, "=", none⟩

/-- A `var` keyword token (line 1). -/
def varTok : TokenInfo := ⟨.Var, 1, "var", none⟩

/-- A `print` keyword token (line 1). -/
def printTok : TokenInfo := ⟨.Print, 1, "print", none⟩

/-- A `<` token (line 1). -/
def lessTok : TokenInfo := ⟨.Less, 1, "<", none⟩

/-- A `+` token (line 1). -/
def plusTok : TokenInfo := ⟨.Plus, 1, "+", none⟩

/-- An `and` keyword token (line 1). -/
def andTok : TokenInfo := ⟨.And, 1, "and", none⟩

/-- A `/` token (line 1). -/
def slashTok : TokenInfo := ⟨.Slash, 1, "/", none⟩

/-- The token sequence of the source `;`. -/
def toksSemi : List TokenInfo := [semiTok, eofTok]

/-- The token sequence of the source `1 = 2;`. -/
def toks4 : List TokenInfo :=
  [⟨.Number, 1, "1", some 1⟩, eqTok, ⟨.Number, 1, "2", some 2⟩, semiTok, eofTok]

/-- The missing-semicolon error produced by `print_statment`. -/
def errSemiValue : ParsingError := ⟨.Stmt, "Expect \x27;\x27 after value", 1, none⟩

/-- The token sequence of `\x7b print 1 print 2 \x7d`: a block containing
two malformed statements. -/
def toksC5 : List TokenInfo :=
  [⟨.LeftBrace, 1, "\x7b", none⟩, printTok, ⟨.Number, 1, "1", some 1⟩,
   printTok, ⟨.Number, 1, "2", some 2⟩, ⟨.RightBrace, 1, "\x7d", none⟩, eofTok]

/-- The token sequence of `for (var i = 0; i < 3; i = i + 1) print i;`. -/
def toksFor : List TokenInfo :=
  [⟨.For, 1, "for", none⟩, ⟨.LeftParen, 1, "(", none⟩, varTok,
   iTok, eqTok, ⟨.Number, 1, "0", some 0⟩, semiTok,
   iTok, lessTok, ⟨.Number, 1, "3", some 3⟩, semiTok,
   iTok, eqTok, iTok, plusTok, ⟨.Number, 1, "1", some 1⟩,
   ⟨.RightParen, 1, ")", none⟩, printTok, iTok, semiTok, eofTok]

/-- The desugaring of `for (var i = 0; i < 3; i = i + 1) print i;` required
by the spec: `Block [init, While (cond) (Block [body, Expression incr])]`,
with no `for`-specific node (and indeed `Stmt` has no such constructor). -/
def forAst : Stmt :=
  .Block [.Var iTok (some (.Literal (.Number 0))),
    .While (.Binary (.Variable iTok) lessTok (.Literal (.Number 3)))
      (.Block [.Print (.Variable iTok),
        .Expression (.Assign iTok (.Binary (.Variable iTok) plusTok (.Literal (.Number 1))))])]

/-- The token sequence of `for (;;) print 1;` (all three clauses absent). -/
def toksForEmpty : List TokenInfo :=
  [⟨.For, 1, "for", none⟩, ⟨.LeftParen, 1, "(", none⟩, semiTok, semiTok,
   ⟨.RightParen, 1, ")", none⟩, printTok, ⟨.Number, 1, "1", some 1⟩, semiTok, eofTok]

/-- The token sequence of `var a = 1; \x7b var a = 2; \x7d print a;`. -/
def toksC8 : List TokenInfo :=
  [varTok, aTok, eqTok, ⟨.Number, 1, "1", some 1⟩, semiTok,
   ⟨.LeftBrace, 1, "\x7b", none⟩, varTok, aTok, eqTok, ⟨.Number, 1, "2", some 2⟩, semiTok,
   ⟨.RightBrace, 1, "\x7d", none⟩, printTok, aTok, semiTok, eofTok]

/-- Its parse result: outer declaration, shadowing block, print. -/
def astC8 : List Stmt :=
  [.Var aTok (some (.Literal (.Number 1))),
   .Block [.Var aTok (some (.Literal (.Number 2)))],
   .Print (.Variable aTok)]

/-- The token sequence of `var x; print x;`. -/
def toksC10 : List TokenInfo := [varTok, xTok, semiTok, printTok, xTok, semiTok, eofTok]

/-- The condition on a parser state that the current token opens no
expression: none of the `primary` literal alternatives, no identifier, no
`(`, and neither unary operator applies. -/
def noExprStartP (st : PState) : Prop :=
  checkP st .True = false ∧ checkP st .False = false ∧ checkP st .Nil = false ∧
  checkP st .String = false ∧ checkP st .Number = false ∧
  checkP st .Identifier = false ∧ checkP st .LeftParen = false ∧
  checkP st .Bang = false ∧ checkP st .Minus = false

/-! ## Helper lemmas -/

/-- Looking a name up right after inserting it finds the inserted value. -/
theorem lookupValues_insertValues (l : List (String × Value)) (name : String) (v : Value) :
    lookupValues (insertValues l name v) name = some v := by
  induction l with
  | nil => simp [insertValues, lookupValues]
  | cons p rest ih =>
    by_cases h : p.1 = name
    · simp [insertValues, h, lookupValues]
    · simp [insertValues, h, lookupValues, ih]

/-- At a parser state whose current token opens no expression, every rule of
the expression-level recursive-descent chain runs out of fuel at every fuel:
`primary` falls through all its alternatives, discards the failed match of
`(`, and re-enters `expression` at the same position. -/
theorem exprStuck (st : PState) (h : noExprStartP st) (n : Nat) :
    expressionF n st = none ∧ assigmentF n st = none ∧ orF n st = none ∧
    andF n st = none ∧ equalityF n st = none ∧ comparisonF n st = none ∧
    termF n st = none ∧ factorF n st = none ∧ unaryF n st = none ∧
    primaryF n st = none := by
  obtain ⟨h1, h2, h3, h4, h5, h6, h7, h8, h9⟩ := h
  induction n with
  | zero => exact ⟨rfl, rfl, rfl, rfl, rfl, rfl, rfl, rfl, rfl, rfl⟩
  | succ n ih =>
    obtain ⟨he, ha, ho, hd, hq, hc, ht, hf, hu, hp⟩ := ih
    refine ⟨?_, ?_, ?_, ?_, ?_, ?_, ?_, ?_, ?_, ?_⟩
    · simp [expressionF, ha]
    · simp [assigmentF, ho]
    · simp [orF, hd]
    · simp [andF, hq]
    · simp [equalityF, hc]
    · simp [comparisonF, ht]
    · simp [termF, hf]
    · simp [factorF, hu]
    · simp [unaryF, match_tokensP, h8, h9, hp]
    · simp [primaryF, match_tokensP, h1, h2, h3, h4, h5, h6, h7, he]

/-- At a parser state whose current token opens neither a statement keyword
nor an expression, `declaration` runs out of fuel at every fuel: its
dispatch falls through to `expression_statment`, whose `expression` call
never returns. -/
theorem declStuck (st : PState) (h : noExprStartP st)
    (hv : checkP st .Var = false) (hfo : checkP st .For = false)
    (hw : checkP st .While = false) (hpr : checkP st .Print = false)
    (hb : checkP st .LeftBrace = false) (hi : checkP st .If = false) :
    ∀ n, declarationF n st = none := by
  intro n
  match n with
  | 0 => rfl
  | 1 => simp [declarationF, match_tokensP, hv, statmentF]
  | 2 =>
    simp [declarationF, match_tokensP, hv, statmentF, hfo, hw, hpr, hb, hi,
      expression_statmentF]
  | (m + 3) =>
    simp [declarationF, match_tokensP, hv, statmentF, hfo, hw, hpr, hb, hi,
      expression_statmentF, (exprStuck st h m).1]

/-- The top-level parse loop never returns when positioned (before end of
input) at a token from which `declaration` never returns. -/
theorem parseLoopStuck (st : PState) (h : noExprStartP st)
    (hv : checkP st .Var = false) (hfo : checkP st .For = false)
    (hw : checkP st .While = false) (hpr : checkP st .Print = false)
    (hb : checkP st .LeftBrace = false) (hi : checkP st .If = false)
    (hend : st.is_at_end = false) :
    ∀ n stmts errs, parseLoopF n st stmts errs = none := by
  intro n stmts errs
  match n with
  | 0 => rfl
  | m + 1 => simp [parseLoopF, hend, declStuck st h hv hfo hw hpr hb hi m]

/-! ## Claim theorems -/

/-- Claim C1: the claim says a `Block` pops its scope on every exit path,
including when a child fails, leaving the stack balanced.  The code does
not: `execute_block` runs its children behind the `?` operator, which
returns before `jump_out_scope` on a child error.  Executing
`\x7b x; \x7d` (the variable `x` being undefined) from a fresh interpreter
surfaces the runtime error to the caller, but leaves TWO scopes on the
stack where the balanced count is one; a block whose child succeeds does
pop back to one scope. -/
theorem execute_block_leaks_scope_on_child_error :
    execute 10 InterpState.new (.Block [.Expression (.Variable xTok)])
      = some (.error (.err "Undefined variable x."), ⟨⟨[⟨[]⟩, ⟨[]⟩]⟩, []⟩)
    ∧ InterpState.new.env.scopes.length = 1
    ∧ (InterpState.mk ⟨[⟨[]⟩, ⟨[]⟩]⟩ []).env.scopes.length = 2
    ∧ execute 10 InterpState.new (.Block [.Expression (.Literal .Nil)])
      = some (.ok (), InterpState.new) :=
  ⟨rfl, rfl, rfl, rfl⟩

/-- Claim C2: the claim says `parse` terminates on every end-of-input-
terminated token sequence, never panicking, unknown tokens producing only an
error message.  The code does not: on the token sequence of the source `;`,
`primary` matches no alternative, ignores the failed match of `(`, and
re-enters `expression` at the same position, so `parse` never returns at
any fuel (the Rust original overflows the stack). -/
theorem parse_runs_forever_on_unmatched_token :
    scan 100 ";" = some (.ok (toksSemi, []))
    ∧ toksSemi.getLast? = some eofTok
    ∧ ∀ n, parseF n toksSemi = none := by
  refine ⟨rfl, rfl, ?_⟩
  intro n
  have hstuck := parseLoopStuck ⟨toksSemi, 0⟩
    (by unfold noExprStartP; decide)
    (by decide) (by decide) (by decide) (by decide) (by decide) (by decide) (by decide)
  simp [parseF, hstuck]

/-- Claim C3: the claim says `scan` never fails except on an unterminated
string, and that a `//` comment reaching end of input is consumed without
emitting a token.  The code panics there instead: the comment loop tests
`peek() != Some(newline)`, which still holds at end of input, so `advance`
indexes past the end of the source (an out-of-bounds panic).  With a
newline present the comment is fine, and an unrecognized character is
reported and skipped without failing the scan. -/
theorem scan_panics_on_comment_at_end_of_input :
    scan 100 "//x" = some (.error .indexOutOfBounds)
    ∧ scan 100 "//x\n1" = some (.ok ([⟨.Number, 2, "1", some 1⟩, ⟨.EOF, 2, "", none⟩], []))
    ∧ scan 100 "@" = some (.ok ([eofTok], ['@'])) :=
  ⟨rfl, rfl, rfl⟩

/-- Claim C4: the claim says parsing `1 = 2;` returns `Err` with exactly one
expression-kind error mentioning the invalid assignment target at the line
of the `=`.  The code does record exactly that error — the statement
attempt on `1 = 2;` produces the single error
`(Expression, invalid assigment target, line 1)` and leaves the parser at
the `;` — but `parse` then re-enters expression parsing at that `;` and
never returns at any fuel, instead of returning the error list. -/
theorem parse_records_invalid_assignment_target_then_diverges :
    scan 100 "1 = 2;" = some (.ok (toks4, []))
    ∧ declarationF 100 ⟨toks4, 0⟩
        = some (.error [⟨.Expr, "Invalid assigment target", 1, none⟩], ⟨toks4, 3⟩)
    ∧ (∀ n stmts errs, parseLoopF n ⟨toks4, 3⟩ stmts errs = none) := by
  refine ⟨rfl, rfl, ?_⟩
  exact parseLoopStuck ⟨toks4, 3⟩
    (by unfold noExprStartP; decide)
    (by decide) (by decide) (by decide) (by decide) (by decide) (by decide) (by decide)

/-- Claim C5: `parse` returns `Ok` with the statement list exactly when the
top-level loop recorded zero errors, and otherwise returns `Err` with the
complete recorded list; concretely, the block `\x7b print 1 print 2 \x7d`
(two statements missing their semicolons) parses to `Err` with exactly the
two missing-semicolon errors. -/
theorem parse_ok_iff_no_errors_and_aggregates_all :
    (∀ (n : Nat) (toks : List TokenInfo) (stmts : List Stmt)
        (errs : List ParsingError) (st : PState),
      parseLoopF n ⟨toks, 0⟩ [] [] = some ((stmts, errs), st) →
      ((parseF n toks = some (.ok stmts)) ↔ errs = [])
        ∧ (errs ≠ [] → parseF n toks = some (.error errs)))
    ∧ scan 300 "\x7b print 1 print 2 \x7d" = some (.ok (toksC5, []))
    ∧ parseLoopF 300 ⟨toksC5, 0⟩ [] []
        = some (([], [errSemiValue, errSemiValue]), ⟨toksC5, 6⟩)
    ∧ parseF 300 toksC5 = some (.error [errSemiValue, errSemiValue]) := by
  refine ⟨?_, rfl, rfl, rfl⟩
  intro n toks stmts errs st hrun
  by_cases herr : errs = []
  · subst herr
    simp [parseF, hrun]
  · refine ⟨?_, fun _ => by simp [parseF, hrun, herr]⟩
    simp [parseF, hrun, herr]

/-- Witness for C5: the theorem applied to the two-error block. -/
theorem parse_ok_iff_no_errors_and_aggregates_all_witness :
    parseF 300 toksC5 = some (.error [errSemiValue, errSemiValue]) :=
  (parse_ok_iff_no_errors_and_aggregates_all.1 300 toksC5 []
      [errSemiValue, errSemiValue] ⟨toksC5, 6⟩
      parse_ok_iff_no_errors_and_aggregates_all.2.2.1).2 (by decide)

/-- Claim C6: logical `and` with a falsy left operand returns the left value
without evaluating the right (the environment is exactly the one after the
left operand); `or` likewise with a truthy left value; in the remaining
cases the result is exactly the evaluation of the right operand, with no
boolean coercion.  Concretely, `false and (1/0)` evaluates to
`Boolean(false)` with no error. -/
theorem logical_short_circuit :
    (∀ (env env' : Environment) (l r : Expr) (op : TokenInfo) (v : Value),
      op.token_type = .And → evaluate env l = (.ok v, env') → v.is_truthy = false →
      evaluate env (.Logical l op r) = (.ok v, env'))
    ∧ (∀ (env env' : Environment) (l r : Expr) (op : TokenInfo) (v : Value),
      op.token_type = .Or → evaluate env l = (.ok v, env') → v.is_truthy = true →
      evaluate env (.Logical l op r) = (.ok v, env'))
    ∧ (∀ (env env' : Environment) (l r : Expr) (op : TokenInfo) (v : Value),
      op.token_type = .And → evaluate env l = (.ok v, env') → v.is_truthy = true →
      evaluate env (.Logical l op r) = evaluate env' r)
    ∧ (∀ (env env' : Environment) (l r : Expr) (op : TokenInfo) (v : Value),
      op.token_type = .Or → evaluate env l = (.ok v, env') → v.is_truthy = false →
      evaluate env (.Logical l op r) = evaluate env' r)
    ∧ evaluate Environment.new (.Logical (.Literal (.Boolean false)) andTok
        (.Binary (.Literal (.Number 1)) slashTok (.Literal (.Number 0))))
      = (.ok (.Boolean false), Environment.new) := by
  refine ⟨?_, ?_, ?_, ?_, rfl⟩ <;>
    · intro env env' l r op v hop hl hv
      simp [evaluate, hl, hop, hv]

/-- Witness for C6: `false and boom` (an undefined variable on the right)
still evaluates to `Boolean(false)`, the right operand never running. -/
theorem logical_short_circuit_witness :
    evaluate Environment.new (.Logical (.Literal (.Boolean false)) andTok
        (.Variable ⟨.Identifier, 1, "boom", none⟩))
      = (.ok (.Boolean false), Environment.new) :=
  logical_short_circuit.1 Environment.new Environment.new
    (.Literal (.Boolean false)) (.Variable ⟨.Identifier, 1, "boom", none⟩)
    andTok (.Boolean false) rfl rfl rfl

/-- Claim C7: `for` is desugared at parse time (there is no `for` statement
node): the canonical loop parses to
`Block [Var i 0, While (i < 3) (Block [print i, i = i + 1])]`, running it
prints `0`, `1`, `2` and leaves `i` undefined in the enclosing (global)
scope; with all clauses missing, the condition becomes `Literal(true)` and
both wrappers are omitted. -/
theorem for_desugars_to_while_and_scopes_i :
    scan 300 "for (var i = 0; i < 3; i = i + 1) print i;" = some (.ok (toksFor, []))
    ∧ parseF 300 toksFor = some (.ok [forAst])
    ∧ interpret 300 InterpState.new [forAst]
        = some (.ok (), ⟨⟨[⟨[]⟩]⟩, ["0", "1", "2"]⟩)
    ∧ Environment.get ⟨[⟨[]⟩]⟩ "i" = .error "Undefined variable i."
    ∧ scan 300 "for (;;) print 1;" = some (.ok (toksForEmpty, []))
    ∧ parseF 300 toksForEmpty
        = some (.ok [.While (.Literal (.Boolean true)) (.Print (.Literal (.Number 1)))]) :=
  ⟨rfl, rfl, rfl, rfl, rfl, rfl⟩

/-- Claim C8: reads and assignments walk the scope stack from innermost to
outermost and act on the first scope containing the name, erring exactly
when no scope contains it, while `var` always writes the innermost scope;
concretely `var a = 1; \x7b var a = 2; \x7d print a;` prints `1`. -/
theorem env_lookup_innermost_first :
    (∀ (sc : VariableScope) (rest : List VariableScope) (name : String) (v : Value),
      lookupValues sc.values name = some v →
      Environment.get ⟨sc :: rest⟩ name = .ok v)
    ∧ (∀ (sc : VariableScope) (rest : List VariableScope) (name : String),
      lookupValues sc.values name = none →
      Environment.get ⟨sc :: rest⟩ name = Environment.get ⟨rest⟩ name)
    ∧ (∀ (env : Environment) (name : String),
      (∀ sc ∈ env.scopes, lookupValues sc.values name = none) ↔
        Environment.get env name = .error ("Undefined variable " ++ name ++ "."))
    ∧ (∀ (sc : VariableScope) (rest : List VariableScope) (name : String) (v w : Value),
      lookupValues sc.values name = some w →
      Environment.assign ⟨sc :: rest⟩ name v
        = .ok ⟨⟨insertValues sc.values name v⟩ :: rest⟩)
    ∧ (∀ (sc : VariableScope) (rest : List VariableScope) (name : String) (v : Value),
      lookupValues sc.values name = none →
      Environment.assign ⟨sc :: rest⟩ name v
        = (Environment.assign ⟨rest⟩ name v).map (fun env' => ⟨sc :: env'.scopes⟩))
    ∧ (∀ (sc : VariableScope) (rest : List VariableScope) (name : String) (v : Value),
      Environment.define ⟨sc :: rest⟩ name v = ⟨⟨insertValues sc.values name v⟩ :: rest⟩)
    ∧ scan 300 "var a = 1; \x7b var a = 2; \x7d print a;" = some (.ok (toksC8, []))
    ∧ parseF 300 toksC8 = some (.ok astC8)
    ∧ interpret 300 InterpState.new astC8
        = some (.ok (), ⟨⟨[⟨[("a", .Number 1)]⟩]⟩, ["1"]⟩) := by
  refine ⟨?_, ?_, ?_, ?_, ?_, fun sc rest name v => rfl, rfl, rfl, rfl⟩
  · intro sc rest name v h
    simp [Environment.get, getInScopes, h]
  · intro sc rest name h
    simp [Environment.get, getInScopes, h]
  · intro env name
    obtain ⟨scopes⟩ := env
    induction scopes with
    | nil => simp [Environment.get, getInScopes]
    | cons sc rest ih =>
      cases hsc : lookupValues sc.values name with
      | some v => simp [Environment.get, getInScopes, hsc]
      | none => simpa [Environment.get, getInScopes, hsc] using ih
  · intro sc rest name v w h
    simp [Environment.assign, assignInScopes, h]
  · intro sc rest name v h
    simp only [Environment.assign, assignInScopes, h, Option.isSome_none, Bool.false_eq_true,
      if_false]
    cases assignInScopes rest name v <;> simp [Except.map]

/-- Witness for C8: with two scopes both binding `a`, the innermost (head)
binding wins. -/
theorem env_lookup_innermost_first_witness :
    Environment.get ⟨[⟨[("a", .Number 2)]⟩, ⟨[("a", .Number 1)]⟩]⟩ "a"
      = .ok (.Number 2) :=
  env_lookup_innermost_first.1 ⟨[("a", .Number 2)]⟩ [⟨[("a", .Number 1)]⟩]
    "a" (.Number 2) rfl

/-- Claim C9: dividing two `Number` operands always succeeds with a
`Number` (never a runtime error) — in the exact model the quotient is the
rational quotient, and in the IEEE model division by zero yields an
infinity for a nonzero dividend and NaN for `0/0`, still without error. -/
theorem divide_numbers_never_errors_ieee :
    (∀ a b : Num, divide_values (.Number a) (.Number b) = .ok (.Number (a.div b)))
    ∧ (∀ a b : F64, divide_values64 (.Number a) (.Number b) = .ok (.Number (a.div b)))
    ∧ F64.div (.finite 1) (.finite 0) = .posInf
    ∧ F64.div (.finite 0) (.finite 0) = .nan
    ∧ F64.div (.finite (Num.neg 1)) (.finite 0) = .negInf :=
  ⟨fun _ _ => rfl, fun _ _ => rfl, rfl, rfl, rfl⟩

/-- Claim C10: a `var` declaration without initializer binds the name to
`Nil` in the innermost scope and succeeds, and a subsequent read of the
name yields `Nil` rather than an undefined-variable error; concretely
`var x; print x;` prints `nil`. -/
theorem var_decl_without_initializer_binds_nil :
    (∀ (st : InterpState) (name : TokenInfo),
      execute_variable_declaration st name none =
        (.ok (), { st with env := st.env.define name.lexeme .Nil }))
    ∧ (∀ (n : Nat) (st : InterpState) (name : TokenInfo),
      execute (n + 1) st (.Var name none)
        = some (execute_variable_declaration st name none))
    ∧ (∀ (sc : VariableScope) (rest : List VariableScope) (name : String),
      (Environment.define ⟨sc :: rest⟩ name .Nil).get name = .ok .Nil)
    ∧ scan 300 "var x; print x;" = some (.ok (toksC10, []))
    ∧ parseF 300 toksC10 = some (.ok [.Var xTok none, .Print (.Variable xTok)])
    ∧ interpret 300 InterpState.new [.Var xTok none, .Print (.Variable xTok)]
        = some (.ok (), ⟨⟨[⟨[("x", .Nil)]⟩]⟩, ["nil"]⟩) := by
  refine ⟨fun st name => rfl, fun n st name => rfl, ?_, rfl, rfl, rfl⟩
  intro sc rest name
  simp [Environment.define, Environment.get, getInScopes, lookupValues_insertValues]

end RLox
